import Mathlib

/-!
Shallow embedding of the persistence core of `app.py` (a Tkinter/SQLite
3D-printer service logger).  The embedded functions mirror the DB-helper
methods of `PrinterServiceApp` (`fetch_printers`, `insert_printer`,
`update_printer`, `delete_printer`, `ensure_unique_printer_id`,
`insert_log`, `update_log`, `delete_log`) and the schema/migration
function `initialize_database`.

Modelling conventions:
* SQLite tables become Lean lists of row structures; `AUTOINCREMENT`
  surrogate keys become an explicit next-key counter.
* Each Python DB helper opens a fresh `sqlite3` connection.  SQLite
  enforces foreign keys (and hence `ON DELETE CASCADE`) only on
  connections that ran `PRAGMA foreign_keys = ON`; in the source only the
  two read helpers do, so every write path runs with foreign keys OFF.
  The embedding reproduces exactly that behaviour.
* Python exceptions raised by the helpers (`ValueError` for bad hours
  input, `sqlite3.IntegrityError` for constraint violations) become an
  `Except` error value; the transaction context manager rolls back on
  exception, so an error leaves the store unchanged.
* `datetime('now')` is modelled as an explicit timestamp argument.
-/

namespace PrinterApp

/-! ### String primitives

Python `str.strip()` and SQLite's BINARY text collation are embedded as
structurally recursive functions on the character list, so that every
operation evaluates inside the kernel. -/

/-- Python `s.strip()` with no argument: remove leading and trailing
whitespace (the embedding covers the ASCII whitespace characters). -/
def pyStrip (s : String) : String :=
  ⟨((s.data.dropWhile Char.isWhitespace).reverse.dropWhile Char.isWhitespace).reverse⟩

/-- Lexicographic order on character lists by code point; on UTF-8 data
this coincides with SQLite's BINARY collation (byte-wise memcmp). -/
def charListLe : List Char → List Char → Bool
  | [], _ => true
  | _ :: _, [] => false
  | a :: as, b :: bs =>
    if a.toNat < b.toNat then true
    else if b.toNat < a.toNat then false
    else charListLe as bs

/-- BINARY-collation order on strings, used by the ORDER BY clauses. -/
def strLe (a b : String) : Bool := charListLe a.data b.data

theorem charListLe_cons (a b : Char) (as bs : List Char) :
    charListLe (a :: as) (b :: bs) = true ↔
      a.toNat < b.toNat ∨ (a.toNat = b.toNat ∧ charListLe as bs = true) := by
  simp only [charListLe]
  by_cases h1 : a.toNat < b.toNat
  · rw [if_pos h1]
    exact iff_of_true rfl (Or.inl h1)
  · by_cases h2 : b.toNat < a.toNat
    · rw [if_neg h1, if_pos h2]
      exact iff_of_false (by simp) (by rintro (h | ⟨he, _⟩) <;> omega)
    · rw [if_neg h1, if_neg h2]
      constructor
      · intro hr
        exact Or.inr ⟨by omega, hr⟩
      · rintro (h | ⟨_, hr⟩)
        · omega
        · exact hr

theorem charListLe_total : ∀ as bs, charListLe as bs = true ∨ charListLe bs as = true
  | [], _ => Or.inl rfl
  | _ :: _, [] => Or.inr rfl
  | a :: as, b :: bs => by
    rw [charListLe_cons, charListLe_cons]
    rcases Nat.lt_trichotomy a.toNat b.toNat with h | h | h
    · exact Or.inl (Or.inl h)
    · rcases charListLe_total as bs with hc | hc
      · exact Or.inl (Or.inr ⟨h, hc⟩)
      · exact Or.inr (Or.inr ⟨h.symm, hc⟩)
    · exact Or.inr (Or.inl h)

theorem charListLe_trans :
    ∀ as bs cs, charListLe as bs = true → charListLe bs cs = true → charListLe as cs = true := by
  intro as
  induction as with
  | nil => intro bs cs _ _; rfl
  | cons a as ih =>
    intro bs cs h1 h2
    cases bs with
    | nil => simp [charListLe] at h1
    | cons b bs =>
      cases cs with
      | nil => simp [charListLe] at h2
      | cons c cs =>
        rw [charListLe_cons] at h1 h2 ⊢
        rcases h1 with h1 | ⟨e1, r1⟩
        · rcases h2 with h2 | ⟨e2, r2⟩
          · exact Or.inl (by omega)
          · exact Or.inl (by omega)
        · rcases h2 with h2 | ⟨e2, r2⟩
          · exact Or.inl (by omega)
          · exact Or.inr ⟨by omega, ih bs cs r1 r2⟩

instance exceptDecEq {ε α : Type} [DecidableEq ε] [DecidableEq α] :
    DecidableEq (Except ε α) := fun x y =>
  match x, y with
  | .error a, .error b =>
    if h : a = b then isTrue (h ▸ rfl) else isFalse (fun he => h (by cases he; rfl))
  | .error _, .ok _ => isFalse (fun he => Except.noConfusion he)
  | .ok _, .error _ => isFalse (fun he => Except.noConfusion he)
  | .ok a, .ok b =>
    if h : a = b then isTrue (h ▸ rfl) else isFalse (fun he => h (by cases he; rfl))

/-! ### Python `int()` parsing, as used by `int(hours)` -/

/-- Numeric value of an ASCII digit character. -/
def digitVal (c : Char) : Nat := c.toNat - 48

/-- Decimal fold over a digit list starting from accumulator `a`. -/
def decFrom (a : Nat) (cs : List Char) : Nat :=
  cs.foldl (fun x c => 10 * x + digitVal c) a

/-- Whether `c` is an ASCII decimal digit. -/
def isAsciiDigit (c : Char) : Bool := 48 ≤ c.toNat && c.toNat ≤ 57

/-- Tail of Python's integer-literal digit grammar: digits with single
underscores allowed only between two digits. -/
def pyDigitsRest : List Char → Bool
  | [] => true
  | c :: rest =>
    if isAsciiDigit c then pyDigitsRest rest
    else if c = '_' then
      match rest with
      | [] => false
      | d :: rest2 => isAsciiDigit d && pyDigitsRest rest2
    else false

/-- Python digit-string grammar: at least one digit, underscores only
between digits. -/
def pyDigitsOk : List Char → Bool
  | [] => false
  | c :: rest => isAsciiDigit c && pyDigitsRest rest

/-- Value of a digit list accepted by `pyDigitsOk` (underscores skipped). -/
def pyNatOfChars (cs : List Char) : Option Nat :=
  if pyDigitsOk cs then some (decFrom 0 (cs.filter (fun c => c != '_'))) else none

/-- Python `int(s)` on a string: surrounding whitespace stripped, optional
sign, ASCII decimal digits (with underscore grouping); `none` models the
`ValueError` Python raises otherwise. -/
def pyIntOfString (s : String) : Option Int :=
  match (pyStrip s).data with
  | '-' :: rest => (pyNatOfChars rest).map (fun n => -(n : Int))
  | '+' :: rest => (pyNatOfChars rest).map (fun n => (n : Int))
  | cs => (pyNatOfChars cs).map (fun n => (n : Int))

/-- Source expression `int(hours) if str(hours).strip() != "" else 0`
from `insert_printer` / `update_printer`: blank input coerces to 0,
otherwise Python `int()` parsing (`none` models the `ValueError`). -/
def hoursVal (hours : String) : Option Int :=
  if pyStrip hours = "" then some 0 else pyIntOfString hours

/-! ### Data model: the two tables of the schema -/

/-- One row of the `printers` table (current schema). `ams` is stored as
the integer 0/1, exactly as the source stores `1 if ams else 0`. -/
structure PrinterRow where
  id : Nat
  printer_id : String
  name : String
  manufacturer : String
  model : String
  hours : Int
  nozzle_type : String
  ams : Int
deriving DecidableEq

/-- One row of the `service_logs` table. -/
structure LogRow where
  id : Nat
  printer_id_fk : Nat
  note : String
  created_at : String
deriving DecidableEq

/-- The store, with explicit next surrogate keys for the two
`AUTOINCREMENT` primary keys. -/
structure Store where
  printers : List PrinterRow
  logs : List LogRow
  nextPrinterKey : Nat
  nextLogKey : Nat
deriving DecidableEq

/-- The empty store of a freshly created database. -/
def emptyStore : Store := ⟨[], [], 1, 1⟩

/-- The exceptions the persistence helpers can raise: Python `ValueError`
(bad hours input, source line 182) and `sqlite3.IntegrityError`
(constraint violations).  The source has no further error classes: both
callers catch `sqlite3.IntegrityError` generically. -/
inductive PyError where
  | valueError (msg : String)
  | integrityError (msg : String)
deriving DecidableEq

/-- The stored user-facing identifiers, i.e. the `printer_id` column. -/
def printerIds (st : Store) : List String := st.printers.map (fun p => p.printer_id)

/-! ### Persistence operations -/

/-- Embeds `insert_printer` (source lines 178-195): parse hours first
(`ValueError` on failure), then INSERT the trimmed fields; the UNIQUE
constraint on `printer_id` raises `sqlite3.IntegrityError` on collision
and the transaction rolls back.  `nozzle_type or ""` only guards a Python
`None`, which the embedding's `String` type excludes. -/
def insert_printer (st : Store) (printer_id name manufacturer model hours nozzle_type : String)
    (ams : Bool) : Except PyError Store :=
  match hoursVal hours with
  | none => .error (.valueError "Hours must be an integer")
  | some hours_val =>
    if pyStrip printer_id ∈ printerIds st then
      .error (.integrityError "UNIQUE constraint failed: printers.printer_id")
    else
      .ok { st with
        printers := st.printers ++
          [⟨st.nextPrinterKey, pyStrip printer_id, pyStrip name, pyStrip manufacturer, pyStrip model,
            hours_val, pyStrip nozzle_type, if ams then 1 else 0⟩],
        nextPrinterKey := st.nextPrinterKey + 1 }

/-- Embeds `update_printer` (source lines 197-219): parse hours first,
then UPDATE the row whose surrogate id matches.  An absent id matches
zero rows and the statement succeeds without any error; a `printer_id`
collision with a different row violates UNIQUE and raises
`sqlite3.IntegrityError`. -/
def update_printer (st : Store) (db_id : Nat)
    (printer_id name manufacturer model hours nozzle_type : String) (ams : Bool) :
    Except PyError Store :=
  match hoursVal hours with
  | none => .error (.valueError "Hours must be an integer")
  | some hours_val =>
    if ∀ p ∈ st.printers, p.id ≠ db_id then
      .ok st
    else if ∃ p ∈ st.printers, p.id ≠ db_id ∧ p.printer_id = pyStrip printer_id then
      .error (.integrityError "UNIQUE constraint failed: printers.printer_id")
    else
      .ok { st with
        printers := st.printers.map (fun p =>
          if p.id = db_id then
            { p with
              printer_id := pyStrip printer_id, name := pyStrip name,
              manufacturer := pyStrip manufacturer, model := pyStrip model,
              hours := hours_val, nozzle_type := pyStrip nozzle_type,
              ams := if ams then 1 else 0 }
          else p) }

/-- Embeds `delete_printer` (source lines 221-223).  The connection it
opens never runs `PRAGMA foreign_keys = ON`, so SQLite leaves foreign
keys OFF and the schema's `ON DELETE CASCADE` does not fire: only the
`printers` row is deleted and `service_logs` is untouched. -/
def delete_printer (st : Store) (db_id : Nat) : Store :=
  { st with printers := st.printers.filter (fun p => p.id != db_id) }

/-- Embeds `insert_log` (source lines 259-264).  Again the connection
has foreign keys OFF, so the `printer_id_fk` REFERENCES clause is not
checked and the row is inserted even for a dead printer id.
`created_at` receives `datetime('now')`, modelled by `now`. -/
def insert_log (st : Store) (db_id : Nat) (note now : String) : Store :=
  { st with
    logs := st.logs ++ [⟨st.nextLogKey, db_id, pyStrip note, now⟩],
    nextLogKey := st.nextLogKey + 1 }

/-- Embeds `update_log` (source lines 266-271): sets `note` on the row
whose id matches; zero matching rows is a silent success. -/
def update_log (st : Store) (log_id : Nat) (note : String) : Store :=
  { st with
    logs := st.logs.map (fun l =>
      if l.id = log_id then { l with note := pyStrip note } else l) }

/-- Embeds `delete_log` (source lines 273-275). -/
def delete_log (st : Store) (log_id : Nat) : Store :=
  { st with logs := st.logs.filter (fun l => l.id != log_id) }

/-! ### Unique-identifier resolution (`ensure_unique_printer_id`) -/

/-- Source line 237: `base_printer_id.strip() or "printer"`. -/
def uniqBase (s : String) : String :=
  if pyStrip s = "" then "printer" else pyStrip s

/-- The k-th candidate probed by `ensure_unique_printer_id`: the bare
base first, then `base-2`, `base-3`, ... (the source starts `idx` at 1
and increments before first use, so suffixes begin at 2). -/
def candidateAt (base : String) : Nat → String
  | 0 => base
  | k + 1 => base ++ "-" ++ Nat.repr (k + 2)

/-- The probe loop of `ensure_unique_printer_id` (source lines 240-248),
embedded with an explicit fuel bound; `none` means the fuel ran out.
`probeLoop ids base fuel k` probes candidates `k, k+1, ...`. -/
def probeLoop (ids : List String) (base : String) : Nat → Nat → Option String
  | 0, _ => none
  | fuel + 1, k =>
    if candidateAt base k ∈ ids then probeLoop ids base fuel (k + 1)
    else some (candidateAt base k)

/-- Embeds `ensure_unique_printer_id` (source lines 236-248).  The
source runs an unbounded `while True` loop; the embedding gives the
loop `|printers| + 2` iterations of fuel, which the termination theorem
shows always suffices (the candidates are pairwise distinct, so at most
`|printers|` of them can collide). -/
def ensure_unique_printer_id (st : Store) (base_printer_id : String) : Option String :=
  probeLoop (printerIds st) (uniqBase base_printer_id) (st.printers.length + 2) 0

/-! ### Sorted retrieval (`fetch_printers`) -/

/-- The tri-state hours sort selector `self.sort_hours`
(`None | 'asc' | 'desc'`, source line 59). -/
inductive SortHours where
  | noSort
  | asc
  | desc
deriving DecidableEq

/-- Row order realised by the ORDER BY clause `fetch_printers` builds
(source lines 168-172): by name for `ORDER BY name`, by hours with name
tie-break for `ORDER BY hours ASC, name` / `ORDER BY hours DESC, name`. -/
def orderRel : SortHours → PrinterRow → PrinterRow → Prop
  | .noSort => fun p q => strLe p.name q.name = true
  | .asc => fun p q => p.hours < q.hours ∨ (p.hours = q.hours ∧ strLe p.name q.name = true)
  | .desc => fun p q => q.hours < p.hours ∨ (p.hours = q.hours ∧ strLe p.name q.name = true)

instance orderRelDec (s : SortHours) : DecidableRel (orderRel s) := fun p q =>
  match s with
  | .noSort => inferInstanceAs (Decidable (strLe p.name q.name = true))
  | .asc =>
    inferInstanceAs (Decidable (p.hours < q.hours ∨ (p.hours = q.hours ∧ strLe p.name q.name = true)))
  | .desc =>
    inferInstanceAs (Decidable (q.hours < p.hours ∨ (p.hours = q.hours ∧ strLe p.name q.name = true)))

instance orderRelTotal (s : SortHours) : IsTotal PrinterRow (orderRel s) := by
  constructor
  intro a b
  cases s with
  | noSort => exact charListLe_total a.name.data b.name.data
  | asc =>
    rcases lt_trichotomy a.hours b.hours with h | h | h
    · exact Or.inl (Or.inl h)
    · rcases charListLe_total a.name.data b.name.data with hn | hn
      · exact Or.inl (Or.inr ⟨h, hn⟩)
      · exact Or.inr (Or.inr ⟨h.symm, hn⟩)
    · exact Or.inr (Or.inl h)
  | desc =>
    rcases lt_trichotomy a.hours b.hours with h | h | h
    · exact Or.inr (Or.inl h)
    · rcases charListLe_total a.name.data b.name.data with hn | hn
      · exact Or.inl (Or.inr ⟨h, hn⟩)
      · exact Or.inr (Or.inr ⟨h.symm, hn⟩)
    · exact Or.inl (Or.inl h)

instance orderRelTrans (s : SortHours) : IsTrans PrinterRow (orderRel s) := by
  constructor
  intro a b c hab hbc
  cases s with
  | noSort => exact charListLe_trans a.name.data b.name.data c.name.data hab hbc
  | asc =>
    rcases hab with h1 | ⟨h1, hn1⟩
    · rcases hbc with h2 | ⟨h2, _⟩
      · exact Or.inl (h1.trans h2)
      · exact Or.inl (h2 ▸ h1)
    · rcases hbc with h2 | ⟨h2, hn2⟩
      · exact Or.inl (h1 ▸ h2)
      · exact Or.inr ⟨h1.trans h2, charListLe_trans a.name.data b.name.data c.name.data hn1 hn2⟩
  | desc =>
    rcases hab with h1 | ⟨h1, hn1⟩
    · rcases hbc with h2 | ⟨h2, _⟩
      · exact Or.inl (h2.trans h1)
      · exact Or.inl (h2 ▸ h1)
    · rcases hbc with h2 | ⟨h2, hn2⟩
      · exact Or.inl (h2.trans_eq h1.symm)
      · exact Or.inr ⟨h1.trans h2, charListLe_trans a.name.data b.name.data c.name.data hn1 hn2⟩

/-- Embeds `fetch_printers` (source lines 165-176): all rows of the
`printers` table, ordered per the selector.  SQLite's ORDER BY is
embedded as a sort by the corresponding row order. -/
def fetch_printers (st : Store) (s : SortHours) : List PrinterRow :=
  List.insertionSort (orderRel s) st.printers

/-- Embeds `fetch_logs_for` (source lines 250-257): the logs of one
printer, ordered by `created_at` descending. -/
def fetch_logs_for (st : Store) (db_id : Nat) : List LogRow :=
  List.insertionSort (fun a b => strLe b.created_at a.created_at = true)
    (st.logs.filter (fun l => l.printer_id_fk == db_id))

/-! ### Schema creation and migration (`initialize_database`) -/

/-- An SQLite value as far as the migration is concerned. -/
inductive SqlVal where
  | nul
  | int (z : Int)
  | text (s : String)
deriving DecidableEq

/-- A table: its column list and its physical rows.  SQLite's
`ALTER TABLE ... ADD COLUMN` appends a column without rewriting stored
rows (reads of the missing trailing value yield the column default), so
a row may be shorter than the column list. -/
structure Tbl where
  cols : List String
  rows : List (List SqlVal)
deriving DecidableEq

/-- The database file: each table is `none` until created. -/
structure DbState where
  printers : Option Tbl
  logs : Option Tbl
deriving DecidableEq

/-- Column list of the `CREATE TABLE printers` statement. -/
def printersSchemaCols : List String :=
  ["id", "printer_id", "name", "manufacturer", "model", "hours", "nozzle_type", "ams"]

/-- Column list of the `CREATE TABLE service_logs` statement. -/
def logsSchemaCols : List String :=
  ["id", "printer_id_fk", "note", "created_at"]

/-- Embeds `initialize_database` (source lines 14-48):
`CREATE TABLE IF NOT EXISTS` for both tables, then one
`PRAGMA table_info(printers)` snapshot of the column set, then an
`ALTER TABLE ... ADD COLUMN` for each of `nozzle_type` / `ams` missing
from that snapshot.  The `os.makedirs` side effect is filesystem-only
and outside the store model. -/
def init_database (db : DbState) : DbState :=
  let p := db.printers.getD { cols := printersSchemaCols, rows := [] }
  let l := db.logs.getD { cols := logsSchemaCols, rows := [] }
  let snapshot := p.cols
  let p1 := if "nozzle_type" ∈ snapshot then p else { p with cols := p.cols ++ ["nozzle_type"] }
  let p2 := if "ams" ∈ snapshot then p1 else { p1 with cols := p1.cols ++ ["ams"] }
  { printers := some p2, logs := some l }

/-- A store already at the current schema: both tables present and both
migration-era columns present in the printers table. -/
def currentSchema (db : DbState) : Bool :=
  match db.printers, db.logs with
  | some pt, some _ => pt.cols.contains "nozzle_type" && pt.cols.contains "ams"
  | _, _ => false

/-! ### Decimal representation facts

The probe candidates `base-2, base-3, ...` are built with `Nat.repr`;
proving them pairwise distinct needs injectivity of `Nat.repr`, shown
here by a decode round trip over `Nat.toDigitsCore`. -/

theorem digitVal_digitChar : ∀ m, m < 10 → digitVal (Nat.digitChar m) = m := by decide

theorem decFrom_toDigitsCore :
    ∀ (fuel n : Nat) (ds : List Char), n < fuel →
      decFrom 0 (Nat.toDigitsCore 10 fuel n ds) = decFrom n ds := by
  intro fuel
  induction fuel with
  | zero => intro n ds h; omega
  | succ fuel ih =>
    intro n ds h
    simp only [Nat.toDigitsCore]
    by_cases hz : n / 10 = 0
    · rw [if_pos hz]
      show decFrom (10 * 0 + digitVal (Nat.digitChar (n % 10))) ds = decFrom n ds
      rw [digitVal_digitChar _ (Nat.mod_lt _ (by norm_num))]
      have hm : 10 * 0 + n % 10 = n := by omega
      rw [hm]
    · rw [if_neg hz]
      have h1 : n / 10 < fuel := by
        have h2 : n / 10 < n := Nat.div_lt_self (by omega) (by norm_num)
        omega
      rw [ih (n / 10) (Nat.digitChar (n % 10) :: ds) h1]
      show decFrom (10 * (n / 10) + digitVal (Nat.digitChar (n % 10))) ds = decFrom n ds
      rw [digitVal_digitChar _ (Nat.mod_lt _ (by norm_num))]
      have hm : 10 * (n / 10) + n % 10 = n := by omega
      rw [hm]

theorem decFrom_repr (n : Nat) : decFrom 0 (Nat.repr n).data = n := by
  have h := decFrom_toDigitsCore (n + 1) n [] (Nat.lt_succ_self n)
  exact h

theorem nat_repr_injective : Function.Injective Nat.repr := by
  intro m n h
  have hm := decFrom_repr m
  rw [h, decFrom_repr n] at hm
  exact hm.symm

theorem candidateAt_injective (base : String) : Function.Injective (candidateAt base) := by
  intro i j h
  match i, j with
  | 0, 0 => rfl
  | 0, j + 1 =>
    exfalso
    have hd := congrArg String.data h
    simp only [candidateAt, String.data_append] at hd
    have hl := congrArg List.length hd
    simp only [List.length_append, List.length_cons, List.length_nil] at hl
    omega
  | i + 1, 0 =>
    exfalso
    have hd := congrArg String.data h
    simp only [candidateAt, String.data_append] at hd
    have hl := congrArg List.length hd
    simp only [List.length_append, List.length_cons, List.length_nil] at hl
    omega
  | i + 1, j + 1 =>
    have hd := congrArg String.data h
    simp only [candidateAt, String.data_append] at hd
    have hr : Nat.repr (i + 2) = Nat.repr (j + 2) := String.ext (List.append_cancel_left hd)
    have he := nat_repr_injective hr
    omega

/-- Pigeonhole: among the first `|ids| + 1` (pairwise distinct) probe
candidates at least one is not a stored identifier. -/
theorem exists_free_candidate (ids : List String) (base : String) :
    ∃ k, k ≤ ids.length ∧ candidateAt base k ∉ ids := by
  by_contra hc
  push_neg at hc
  have hsub : ((List.range (ids.length + 1)).map (candidateAt base)) ⊆ ids := by
    intro x hx
    simp only [List.mem_map, List.mem_range] at hx
    obtain ⟨k, hk, rfl⟩ := hx
    exact hc k (by omega)
  have hnd : ((List.range (ids.length + 1)).map (candidateAt base)).Nodup :=
    (List.nodup_range _).map (candidateAt_injective base)
  have hlen := (List.subperm_of_subset hnd hsub).length_le
  simp only [List.length_map, List.length_range] at hlen
  omega

/-- The probe loop returns a value whenever some candidate within its
fuel window is free. -/
theorem probeLoop_isSome (ids : List String) (base : String) :
    ∀ fuel k0, (∃ k, k0 ≤ k ∧ k < k0 + fuel ∧ candidateAt base k ∉ ids) →
      (probeLoop ids base fuel k0).isSome = true := by
  intro fuel
  induction fuel with
  | zero =>
    rintro k0 ⟨k, h1, h2, -⟩
    omega
  | succ fuel ih =>
    rintro k0 ⟨k, h1, h2, h3⟩
    simp only [probeLoop]
    by_cases hmem : candidateAt base k0 ∈ ids
    · rw [if_pos hmem]
      apply ih (k0 + 1)
      refine ⟨k, ?_, by omega, h3⟩
      rcases Nat.eq_or_lt_of_le h1 with rfl | hlt
      · exact absurd hmem h3
      · omega
    · rw [if_neg hmem]
      rfl

/-- Whatever the probe loop returns is the first free candidate at or
after the start index. -/
theorem probeLoop_first_free (ids : List String) (base : String) :
    ∀ fuel k0 c, probeLoop ids base fuel k0 = some c →
      ∃ k, k0 ≤ k ∧ c = candidateAt base k ∧ candidateAt base k ∉ ids ∧
        ∀ j, k0 ≤ j → j < k → candidateAt base j ∈ ids := by
  intro fuel
  induction fuel with
  | zero =>
    intro k0 c h
    exact absurd h (by simp [probeLoop])
  | succ fuel ih =>
    intro k0 c h
    simp only [probeLoop] at h
    by_cases hmem : candidateAt base k0 ∈ ids
    · rw [if_pos hmem] at h
      obtain ⟨k, hk1, hk2, hk3, hk4⟩ := ih (k0 + 1) c h
      refine ⟨k, by omega, hk2, hk3, fun j hj1 hj2 => ?_⟩
      rcases Nat.eq_or_lt_of_le hj1 with rfl | hlt
      · exact hmem
      · exact hk4 j hlt hj2
    · rw [if_neg hmem] at h
      injection h with h
      refine ⟨k0, Nat.le_refl _, h.symm, hmem, fun j hj1 hj2 => ?_⟩
      omega

/-- Size of the identifier column equals the number of printer rows. -/
theorem printerIds_length (st : Store) : (printerIds st).length = st.printers.length :=
  List.length_map _ _

/-! ### Concrete fixture stores -/

/-- The sample printer of the repository's tests. -/
def pRow1 : PrinterRow := ⟨1, "printer-1", "Printer 1", "Maker", "Model X", 5, "0.4 mm", 0⟩

/-- A service log owned by printer 1. -/
def lRow1 : LogRow := ⟨1, 1, "Initial log entry", "2026-01-01 00:00:00"⟩

/-- A store with one printer (surrogate id 1) owning one service log. -/
def st1 : Store := ⟨[pRow1], [lRow1], 2, 2⟩

/-- A store whose only printer has identifier `machine`. -/
def stMachine : Store := ⟨[⟨1, "machine", "Machine", "", "", 0, "", 0⟩], [], 2, 1⟩

/-- A store holding identifiers `machine` and `machine-2`. -/
def stMachine2 : Store :=
  ⟨[⟨1, "machine", "Machine", "", "", 0, "", 0⟩,
    ⟨2, "machine-2", "Machine Copy", "", "", 0, "", 0⟩], [], 3, 1⟩

/-! ### C1 — referential integrity of service logs -/

/-- C1: evaluation of the code at the failing input.  `delete_printer`
(whose fresh connection never runs `PRAGMA foreign_keys = ON`) removes
only the printer row: the log referencing printer 1 survives as an
orphan whose `printer_id_fk` has no live printer; and `insert_log`
accepts a log whose `printer_id_fk` (42) references no printer at all.
The claim — backed by the schema's `ON DELETE CASCADE` declaration, the
UI's "Delete selected printer and all its logs?" prompt and the repo
test `test_log_crud_and_cascade_delete` — requires the log to be
cascaded away and the dangling insert to be rejected. -/
theorem delete_printer_leaves_orphan_logs :
    (delete_printer st1 1).printers = [] ∧
    (delete_printer st1 1).logs = [lRow1] ∧
    (∃ l ∈ (delete_printer st1 1).logs,
      ∀ p ∈ (delete_printer st1 1).printers, p.id ≠ l.printer_id_fk) ∧
    (insert_log emptyStore 42 "dangling note" "2026-01-02 00:00:00").printers = [] ∧
    (insert_log emptyStore 42 "dangling note" "2026-01-02 00:00:00").logs =
      [⟨1, 42, "dangling note", "2026-01-02 00:00:00"⟩] := by
  refine ⟨by decide, by decide, ⟨lRow1, by decide, by decide⟩, by decide, by decide⟩

/-! ### C2 and C10 — uniqueness resolution and its termination -/

/-- C2: `ensure_unique_printer_id` strips the base (substituting the
literal `printer` when blank) and returns the first candidate of the
sequence base, base-2, base-3, ... that is not a stored `printer_id`;
concretely `machine` resolves to `machine-2` when `machine` is taken, to
`machine-3` when `machine-2` is also taken, and a whitespace-only base
on an empty store resolves to `printer`. -/
theorem ensure_unique_printer_id_first_free :
    (∀ st base, ∃ k,
        ensure_unique_printer_id st base = some (candidateAt (uniqBase base) k) ∧
        candidateAt (uniqBase base) k ∉ printerIds st ∧
        ∀ j, j < k → candidateAt (uniqBase base) j ∈ printerIds st) ∧
    ensure_unique_printer_id stMachine "machine" = some "machine-2" ∧
    ensure_unique_printer_id stMachine2 "machine" = some "machine-3" ∧
    ensure_unique_printer_id emptyStore "   " = some "printer" := by
  refine ⟨?_, by decide, by decide, by decide⟩
  intro st base
  obtain ⟨k0, hk0, hfree⟩ := exists_free_candidate (printerIds st) (uniqBase base)
  have hlen := printerIds_length st
  have hsome := probeLoop_isSome (printerIds st) (uniqBase base) (st.printers.length + 2) 0
    ⟨k0, Nat.zero_le _, by omega, hfree⟩
  obtain ⟨c, hc⟩ := Option.isSome_iff_exists.mp hsome
  obtain ⟨k, -, hck, hnotin, hall⟩ :=
    probeLoop_first_free (printerIds st) (uniqBase base) (st.printers.length + 2) 0 c hc
  refine ⟨k, ?_, hnotin, fun j hj => hall j (Nat.zero_le _) hj⟩
  rw [ensure_unique_printer_id, hc, hck]

/-- C2 witness: the general first-free characterisation instantiated at
a concrete store and base. -/
theorem ensure_unique_printer_id_first_free_witness :
    ∃ k,
      ensure_unique_printer_id stMachine "machine" =
        some (candidateAt (uniqBase "machine") k) ∧
      candidateAt (uniqBase "machine") k ∉ printerIds stMachine ∧
      ∀ j, j < k → candidateAt (uniqBase "machine") j ∈ printerIds stMachine :=
  ensure_unique_printer_id_first_free.1 stMachine "machine"

/-- C10: the probe loop of `ensure_unique_printer_id` terminates for
every store and base within the `|printers| + 2` probes the embedding
allots it: it always returns a value, so the operation is total. -/
theorem ensure_unique_printer_id_total :
    ∀ st base, (ensure_unique_printer_id st base).isSome = true := by
  intro st base
  obtain ⟨k0, hk0, hfree⟩ := exists_free_candidate (printerIds st) (uniqBase base)
  have hlen := printerIds_length st
  exact probeLoop_isSome (printerIds st) (uniqBase base) (st.printers.length + 2) 0
    ⟨k0, Nat.zero_le _, by omega, hfree⟩

/-! ### C3 — duplicate `printer_id` on insert -/

/-- C3 counterexample: inserting a second `printer-1` fails, but with
the generic `sqlite3.IntegrityError` — the only constraint-failure
class the code has, the very one the claim requires the failure to be
distinguishable from.  No distinct `UniquenessError` exists anywhere in
the source (both UI callers catch `sqlite3.IntegrityError` generically,
lines 342 and 365). -/
theorem insert_duplicate_is_generic_integrity_error :
    insert_printer st1 "printer-1" "Other" "" "" "0" "" false =
      .error (.integrityError "UNIQUE constraint failed: printers.printer_id") := by
  decide

/-- C3 amended: inserting a printer whose trimmed `printer_id` is
already stored fails with the generic `sqlite3.IntegrityError` (not a
distinct `UniquenessError`), provided hours parses (hours are parsed
first); the error leaves the store unchanged, so the table retains only
the first printer. -/
theorem insert_duplicate_fails :
    ∀ st pid pname manu mdl hrs nz ams hv, hoursVal hrs = some hv →
      pyStrip pid ∈ printerIds st →
      insert_printer st pid pname manu mdl hrs nz ams =
        .error (.integrityError "UNIQUE constraint failed: printers.printer_id") := by
  intro st pid pname manu mdl hrs nz ams hv h1 h2
  simp only [insert_printer, h1, if_pos h2]

/-- C3 witness: the duplicate-insert failure at a concrete store. -/
theorem insert_duplicate_fails_witness :
    insert_printer st1 "printer-1" "Printer 1b" "" "" "7" "" true =
      .error (.integrityError "UNIQUE constraint failed: printers.printer_id") :=
  insert_duplicate_fails st1 "printer-1" "Printer 1b" "" "" "7" "" true 7
    (by decide) (by decide)

/-! ### C4 — hours validation on insert -/

/-- C4 counterexample: the claim quantifies over every store state and
field tuple, but with `printer-1` already stored an insert with blank
hours does not succeed — the uniqueness violation pre-empts it. -/
theorem insert_blank_hours_not_always_ok :
    insert_printer st1 "printer-1" "X" "" "" "" "" false =
      .error (.integrityError "UNIQUE constraint failed: printers.printer_id") := by
  decide

/-- C4 amended: an insert with blank hours succeeds and stores hours 0
whenever the trimmed `printer_id` is fresh; an insert whose hours input
does not parse as an integer (such as `abc`) fails for every store with
the code's `ValueError` (the spec's `ValidationError`) before touching
the store value, so nothing is stored. -/
theorem insert_hours_validation :
    (∀ st pid pname manu mdl nz ams, pyStrip pid ∉ printerIds st →
        ∃ st2, insert_printer st pid pname manu mdl "" nz ams = .ok st2 ∧
          ∃ p, st2.printers = st.printers ++ [p] ∧ p.hours = 0) ∧
    (∀ st pid pname manu mdl nz ams,
        insert_printer st pid pname manu mdl "abc" nz ams =
          .error (.valueError "Hours must be an integer")) := by
  constructor
  · intro st pid pname manu mdl nz ams h
    have h0 : hoursVal "" = some 0 := by decide
    refine ⟨{ st with
        printers := st.printers ++
          [⟨st.nextPrinterKey, pyStrip pid, pyStrip pname, pyStrip manu, pyStrip mdl,
            0, pyStrip nz, if ams then 1 else 0⟩],
        nextPrinterKey := st.nextPrinterKey + 1 },
      ?_,
      ⟨st.nextPrinterKey, pyStrip pid, pyStrip pname, pyStrip manu, pyStrip mdl,
        0, pyStrip nz, if ams then 1 else 0⟩, rfl, rfl⟩
    simp only [insert_printer, h0, if_neg h]
  · intro st pid pname manu mdl nz ams
    have h0 : hoursVal "abc" = none := by decide
    simp only [insert_printer, h0]

/-- C4 witness: blank-hours insert on the empty store stores hours 0. -/
theorem insert_hours_validation_witness :
    ∃ st2, insert_printer emptyStore "p1" "N" "" "" "" "" false = .ok st2 ∧
      ∃ p, st2.printers = emptyStore.printers ++ [p] ∧ p.hours = 0 :=
  insert_hours_validation.1 emptyStore "p1" "N" "" "" "" false (by decide)

/-! ### C5 — absent surrogate ids on update -/

/-- C5 counterexample: on the empty store, updating printer id 1 and
log id 1 both return successfully having modified zero rows; there is
no `NotFoundError` anywhere in the source, so the claimed failure does
not happen. -/
theorem update_absent_id_silently_succeeds :
    update_printer emptyStore 1 "p" "n" "" "" "0" "" false = .ok emptyStore ∧
    update_log emptyStore 1 "new text" = emptyStore := by
  exact ⟨by decide, by decide⟩

/-- C5 amended: `update_printer` on an absent surrogate id (with
parseable hours) and `update_log` on an absent log id silently succeed,
modifying zero rows and leaving the store unchanged; no `NotFoundError`
is raised. -/
theorem update_absent_id_noop :
    (∀ st db_id pid pname manu mdl hrs nz ams hv, hoursVal hrs = some hv →
        (∀ p ∈ st.printers, p.id ≠ db_id) →
        update_printer st db_id pid pname manu mdl hrs nz ams = .ok st) ∧
    (∀ st log_id note, (∀ l ∈ st.logs, l.id ≠ log_id) →
        update_log st log_id note = st) := by
  constructor
  · intro st db_id pid pname manu mdl hrs nz ams hv h1 h2
    simp only [update_printer, h1, if_pos h2]
  · intro st log_id note h
    have hmap : st.logs.map
        (fun l => if l.id = log_id then { l with note := pyStrip note } else l) = st.logs := by
      conv_rhs => rw [← List.map_id' st.logs]
      apply List.map_congr_left
      intro l hl
      rw [if_neg (h l hl)]
    simp only [update_log, hmap]

/-- C5 witness: both no-op updates at a concrete populated store. -/
theorem update_absent_id_noop_witness :
    update_printer st1 99 "p" "n" "" "" "4" "" false = .ok st1 ∧
    update_log st1 99 "zzz" = st1 :=
  ⟨update_absent_id_noop.1 st1 99 "p" "n" "" "" "4" "" false 4 (by decide) (by decide),
   update_absent_id_noop.2 st1 99 "zzz" (by decide)⟩

/-! ### C6 — update_log is a pure note replacement -/

/-- C6: `update_log` replaces only the note: `id`, `printer_id_fk` and
`created_at` of every log are unchanged (and the printers table is
untouched), while the matching log's note becomes the trimmed new
text. -/
theorem update_log_preserves_created_at :
    ∀ st log_id note,
      ((update_log st log_id note).logs.map
          (fun l => (l.id, l.printer_id_fk, l.created_at)) =
        st.logs.map (fun l => (l.id, l.printer_id_fk, l.created_at))) ∧
      (update_log st log_id note).printers = st.printers ∧
      ∀ l ∈ st.logs, l.id = log_id →
        { l with note := pyStrip note } ∈ (update_log st log_id note).logs := by
  intro st log_id note
  refine ⟨?_, rfl, ?_⟩
  · simp only [update_log, List.map_map]
    apply List.map_congr_left
    intro l hl
    by_cases hid : l.id = log_id
    · simp [hid]
    · simp [hid]
  · intro l hl he
    simp only [update_log]
    exact List.mem_map.mpr ⟨l, hl, by rw [if_pos he]⟩

/-- C6 witness: updating the note of log 1 leaves its `created_at`,
`id` and `printer_id_fk` projections byte-identical. -/
theorem update_log_preserves_created_at_witness :
    (update_log st1 1 "Updated log entry").logs.map
        (fun l => (l.id, l.printer_id_fk, l.created_at)) =
      st1.logs.map (fun l => (l.id, l.printer_id_fk, l.created_at)) :=
  (update_log_preserves_created_at st1 1 "Updated log entry").1

/-! ### C7 — sorted retrieval -/

/-- Fixture printer named Alpha with 5 hours. -/
def pAlpha : PrinterRow := ⟨1, "a", "Alpha", "", "", 5, "", 0⟩

/-- Fixture printer named Beta with 1 hour. -/
def pBeta : PrinterRow := ⟨2, "b", "Beta", "", "", 1, "", 0⟩

/-- Fixture printer named Gamma with 3 hours. -/
def pGamma : PrinterRow := ⟨3, "c", "Gamma", "", "", 3, "", 0⟩

/-- Fixture store whose printers have hours [5, 1, 3]. -/
def stSort : Store := ⟨[pAlpha, pBeta, pGamma], [], 4, 1⟩

/-- C7: `fetch_printers` returns all stored printers (a permutation of
the table) sorted per the selector: by name ascending for the `None`
selector, by hours ascending with name tie-break for `asc`, by hours
descending with name tie-break for `desc`; with hours [5, 1, 3] the
ascending order is [1, 3, 5] and the descending order is [5, 3, 1]. -/
theorem fetch_printers_sorted :
    (∀ st s, List.Perm (fetch_printers st s) st.printers ∧
      List.Sorted (orderRel s) (fetch_printers st s)) ∧
    fetch_printers stSort .asc = [pBeta, pGamma, pAlpha] ∧
    fetch_printers stSort .desc = [pAlpha, pGamma, pBeta] ∧
    fetch_printers stSort .noSort = [pAlpha, pBeta, pGamma] := by
  refine ⟨?_, by decide, by decide, by decide⟩
  intro st s
  exact ⟨List.perm_insertionSort _ _, List.sorted_insertionSort _ _⟩

/-! ### C8 — the sign of stored hours -/

/-- The row a successful insert with hours input `-5` stores. -/
def pNegRow : PrinterRow := ⟨1, "p", "n", "", "", -5, "", 0⟩

/-- The store after inserting `pNegRow` into the empty store. -/
def stNeg : Store := ⟨[pNegRow], [], 2, 1⟩

/-- C8 counterexample: Python `int()` accepts a sign, so a successful
insert can store negative hours — hours input `-5` stores `-5 < 0`,
refuting non-negativity of hours at rest. -/
theorem insert_stores_negative_hours :
    insert_printer emptyStore "p" "n" "" "" "-5" "" false = .ok stNeg ∧
    ∃ p ∈ stNeg.printers, p.hours < 0 := by
  exact ⟨by decide, pNegRow, by decide, by decide⟩

/-- C8 amended: hours at rest is exactly the integer Python `int()`
parses from the input — an integer with no sign restriction — with 0
stored for blank input: every row after a successful insert or update
either predates the operation or carries the parsed hours value. -/
theorem hours_stored_parses :
    (∀ st pid pname manu mdl hrs nz ams st2,
        insert_printer st pid pname manu mdl hrs nz ams = .ok st2 →
        ∀ p ∈ st2.printers, p ∈ st.printers ∨ hoursVal hrs = some p.hours) ∧
    (∀ st db_id pid pname manu mdl hrs nz ams st2,
        update_printer st db_id pid pname manu mdl hrs nz ams = .ok st2 →
        ∀ p ∈ st2.printers, p ∈ st.printers ∨ hoursVal hrs = some p.hours) ∧
    hoursVal "" = some 0 := by
  refine ⟨?_, ?_, by decide⟩
  · intro st pid pname manu mdl hrs nz ams st2 hok p hp
    cases hhv : hoursVal hrs with
    | none => simp [insert_printer, hhv] at hok
    | some hv =>
      simp only [insert_printer, hhv] at hok
      by_cases hdup : pyStrip pid ∈ printerIds st
      · rw [if_pos hdup] at hok
        exact absurd hok (by simp)
      · rw [if_neg hdup] at hok
        injection hok with hok
        rw [← hok] at hp
        rcases List.mem_append.mp hp with hmem | hmem
        · exact Or.inl hmem
        · right
          rw [List.mem_singleton.mp hmem]
  · intro st db_id pid pname manu mdl hrs nz ams st2 hok p hp
    cases hhv : hoursVal hrs with
    | none => simp [update_printer, hhv] at hok
    | some hv =>
      simp only [update_printer, hhv] at hok
      by_cases habs : ∀ q ∈ st.printers, q.id ≠ db_id
      · rw [if_pos habs] at hok
        injection hok with hok
        rw [← hok] at hp
        exact Or.inl hp
      · rw [if_neg habs] at hok
        by_cases hdup : ∃ q ∈ st.printers, q.id ≠ db_id ∧ q.printer_id = pyStrip pid
        · rw [if_pos hdup] at hok
          exact absurd hok (by simp)
        · rw [if_neg hdup] at hok
          injection hok with hok
          rw [← hok] at hp
          obtain ⟨q, hq, hfq⟩ := List.mem_map.mp hp
          by_cases hid : q.id = db_id
          · rw [if_pos hid] at hfq
            right
            rw [← hfq]
          · rw [if_neg hid] at hfq
            exact Or.inl (hfq ▸ hq)

/-- C8 witness: the insert conjunct instantiated at the concrete
negative-hours insert. -/
theorem hours_stored_parses_witness :
    pNegRow ∈ emptyStore.printers ∨ hoursVal "-5" = some pNegRow.hours :=
  hours_stored_parses.1 emptyStore "p" "n" "" "" "-5" "" false stNeg
    (by decide) pNegRow (by decide)

/-! ### C9 — idempotence of initialization/migration -/

/-- Opening an already-current store changes nothing: both tables
exist, the column snapshot contains both migration-era columns, so no
ALTER runs and no row is touched. -/
theorem init_database_noop (db : DbState) (h : currentSchema db = true) :
    init_database db = db := by
  cases db with
  | mk prt lgt =>
    cases prt with
    | none => simp [currentSchema] at h
    | some pt =>
      cases lgt with
      | none => simp [currentSchema] at h
      | some lt =>
        simp only [currentSchema, List.contains, Bool.and_eq_true, List.elem_eq_mem,
          decide_eq_true_eq] at h
        obtain ⟨h1, h2⟩ := h
        simp [init_database, h1, h2]

/-- Initialization always yields a current-schema store. -/
theorem currentSchema_init (db : DbState) : currentSchema (init_database db) = true := by
  simp only [init_database]
  by_cases h1 : "nozzle_type" ∈ (db.printers.getD { cols := printersSchemaCols, rows := [] }).cols <;>
    by_cases h2 : "ams" ∈ (db.printers.getD { cols := printersSchemaCols, rows := [] }).cols <;>
    simp [currentSchema, h1, h2, List.mem_append]

/-- C9: database initialization is idempotent — against a store that
already has the current schema (both tables present, `nozzle_type` and
`ams` columns present) it is a no-op, leaving the state (columns and
rows) unchanged, and hence running it twice equals running it once on
any store. -/
theorem init_database_idempotent :
    ∀ db, (currentSchema db = true → init_database db = db) ∧
      init_database (init_database db) = init_database db := by
  intro db
  exact ⟨init_database_noop db, init_database_noop _ (currentSchema_init db)⟩

/-- C9 witness: initialization at a concrete current-schema store with
one row is the identity. -/
theorem init_database_idempotent_witness :
    init_database
        ⟨some ⟨printersSchemaCols, [[SqlVal.int 1, SqlVal.text "x"]]⟩,
         some ⟨logsSchemaCols, []⟩⟩ =
      ⟨some ⟨printersSchemaCols, [[SqlVal.int 1, SqlVal.text "x"]]⟩,
       some ⟨logsSchemaCols, []⟩⟩ :=
  (init_database_idempotent
      ⟨some ⟨printersSchemaCols, [[SqlVal.int 1, SqlVal.text "x"]]⟩,
       some ⟨logsSchemaCols, []⟩⟩).1 (by decide)

end PrinterApp
